import Mathlib

/-!
Shallow embedding of hucache (src/hucache/cache.py) and verification of the
claims about its argument binding, cache-key rendering, and get-or-compute
protocol.

Modelling conventions:
* Python values that flow through the cache are modelled by the inductive
  type `Value` (integers, strings, and attribute-bearing objects).
* A Python `dict` of keyword arguments (and the argument binding produced by
  `Cache.__prune_arguments`) is modelled as a function `String → Option Value`;
  `none` means the name is absent from the dict.
* The external store (spec section 6) is modelled by its minimal contract:
  a state `String → Option Value` where `none` plays the role of the
  `NOT_FOUND` sentinel returned by `RedisStore.get`.
* Exceptions raised by `str.format` (KeyError for a missing name,
  AttributeError for an unresolvable attribute path — the spec's
  `KeyRenderError` taxonomy) and by invoking a Python callable (TypeError)
  are modelled with `Except PyErr`.
* `Cache.call` and `Cache.invalidate` return, besides the result and the new
  store state, an observation trace: the computed key, the number of wrapped
  function invocations, and the list of store set operations (key, value,
  timeout). These fields observe the side effects the claims talk about.
-/

/-- DEFAULT_TIMEOUT from src/hucache/constants.py. -/
def DEFAULT_TIMEOUT : Nat := 3600

/-- A Python value as it flows through the cache: an integer, a string, or an
object carrying named attributes (used by dotted key templates such as
a.id). -/
inductive Value where
  | int (n : Int)
  | str (s : String)
  | obj (fields : List (String × Value))

/-- Errors a call can raise: KeyError and AttributeError are what
str.format raises during key rendering (the spec's KeyRenderError taxonomy);
TypeError is what invoking a Python callable with unacceptable arguments
raises. -/
inductive PyErr where
  | keyError (name : String)
  | attrError (name : String)
  | typeError
deriving DecidableEq, Repr

/-- A keyword-argument dict or an argument binding: maps a parameter name to
its value, `none` when the name is absent. -/
abbrev Binding : Type := String → Option Value

/-- The empty keyword-argument dict. -/
def emptyKw : Binding := fun _ => none

/-- Association-list lookup, modelling Python dict lookup for the small
dicts built by zip in __prune_arguments and for object attributes. -/
def alookup : List (String × Value) → String → Option Value
  | [], _ => none
  | (k, v) :: rest, n => if k = n then some v else alookup rest n

/-- One piece of a key template (the ruler format string): either literal
text or a placeholder naming a bound argument with an optional dotted
attribute path, e.g. the placeholder a.id has name a and path [id]. -/
inductive TmplPart where
  | lit (s : String)
  | hole (name : String) (path : List String)

/-- A key template (the ruler), as the list of its parsed pieces. -/
abbrev Tmpl : Type := List TmplPart

/-- Names of the placeholders a template consults, in order. -/
def tmplNames : Tmpl → List String
  | [] => []
  | TmplPart.lit _ :: rest => tmplNames rest
  | TmplPart.hole n _ :: rest => n :: tmplNames rest

/-- Python attribute access on a value: objects expose their named fields,
other values have no attributes. -/
def Value.getattr : Value → String → Option Value
  | .obj fs, a => alookup fs a
  | .int _, _ => none
  | .str _, _ => none

/-- Follows a dotted attribute path; a missing attribute raises
AttributeError, as str.format does. -/
def resolvePath : Value → List String → Except PyErr Value
  | v, [] => .ok v
  | v, a :: rest =>
    match v.getattr a with
    | some w => resolvePath w rest
    | none => .error (.attrError a)

/-- String conversion applied by str.format to a substituted value. -/
def Value.toStr : Value → String
  | .int n => toString n
  | .str s => s
  | .obj fs => "<" ++ String.intercalate "," (fs.map (fun p => p.1)) ++ ">"

/-- The ruler.format(**kwargs) call of cache.py: renders the template
against the binding, left to right; a placeholder whose name is absent from
the binding raises KeyError, an unresolvable attribute path raises
AttributeError. -/
def render : Tmpl → Binding → Except PyErr String
  | [], _ => .ok ""
  | TmplPart.lit s :: rest, b =>
    match render rest b with
    | .ok tail => .ok (s ++ tail)
    | .error e => .error e
  | TmplPart.hole n path :: rest, b =>
    match b n with
    | none => .error (.keyError n)
    | some v =>
      match resolvePath v path with
      | .error e => .error e
      | .ok w =>
        match render rest b with
        | .ok tail => .ok (w.toStr ++ tail)
        | .error e => .error e

/-- Cache.__prune_arguments of cache.py. `argNames` and `defaults` are what
getargspec reports for the wrapped callable (`argNames` includes the receiver
name for methods, `defaults` aligns with the last declared names);
`isMethod` is the `isinstance(self._func, types.MethodType)` test. Positional
arguments are zipped against the declared names (dropping the receiver name
for methods) and merged over the supplied keyword arguments via
kwargs.update; declared defaults then fill names still absent. -/
def pruneArguments (argNames : List String) (defaults : List Value)
    (isMethod : Bool) (args : List Value) (kw : Binding) : Binding :=
  let zipNames := if isMethod then argNames.drop 1 else argNames
  let posPairs := zipNames.zip args
  let b1 : Binding :=
    if args.isEmpty then kw
    else fun n =>
      match alookup posPairs n with
      | some v => some v
      | none => kw n
  let defPairs := (argNames.drop (argNames.length - defaults.length)).zip defaults
  if defaults.isEmpty then b1
  else fun n =>
    match b1 n with
    | some v => some v
    | none => alookup defPairs n

/-- A Cache instance of cache.py: the key prefix (None or a string), the
parsed ruler template, the timeout, the wrapped callable's introspected
signature (argNames, defaults), whether the callable is currently a bound
method, and the callable's behaviour when invoked with a keyword-argument
dict (self._func(**kwargs)). The store is passed to each operation as
explicit state. -/
structure Cache where
  pfx : Option String
  ruler : Tmpl
  timeout : Nat
  argNames : List String
  defaults : List Value
  isMethod : Bool
  body : Binding → Except PyErr Value

/-- Prefix concatenation of __call__ and invalidate: `if self._prefix:`
is Python truthiness, so None and the empty string both leave the key
unchanged. -/
def addPfx (pfx : Option String) (k : String) : String :=
  match pfx with
  | some p => if p.isEmpty then k else p ++ k
  | none => k

/-- Binding computed by self.__prune_arguments(*args, **kwargs) for a call
on this Cache instance. -/
def Cache.pruneArgs (c : Cache) (args : List Value) (kw : Binding) : Binding :=
  pruneArguments c.argNames c.defaults c.isMethod args kw

/-- Observation of one __call__: the result (or raised error), the store
state afterwards, how many times the wrapped function was invoked, the
store set operations issued (key, value, timeout), and the computed cache
key (none if rendering raised before a key existed). -/
structure CallOut where
  res : Except PyErr Value
  st : String → Option Value
  fcalls : Nat
  setOps : List (String × Value × Nat)
  key : Option String

/-- Store write: the state after self._store.set(k, v, timeout). -/
def setStore (st : String → Option Value) (k : String) (v : Value) :
    String → Option Value :=
  fun k' => if k' = k then some v else st k'

/-- Cache.__call__ of cache.py: prune the arguments, render and prefix the
key, query the store; on NOT_FOUND invoke self._func(**kwargs), store the
result with the configured timeout, and return it; on a hit return the
cached value. -/
def Cache.call (c : Cache) (st : String → Option Value)
    (args : List Value) (kw : Binding) : CallOut :=
  let b := c.pruneArgs args kw
  match render c.ruler b with
  | .error e => ⟨.error e, st, 0, [], none⟩
  | .ok k0 =>
    let k := addPfx c.pfx k0
    match st k with
    | some v => ⟨.ok v, st, 0, [], some k⟩
    | none =>
      match c.body b with
      | .error e => ⟨.error e, st, 1, [], some k⟩
      | .ok r => ⟨.ok r, setStore st k r, 1, [(k, r, c.timeout)], some k⟩

/-- Observation of one invalidate call: the outcome, the store state
afterwards, the number of wrapped-function invocations (the code contains
none), the keys deleted, and the computed cache key. -/
structure InvOut where
  res : Except PyErr Unit
  st : String → Option Value
  fcalls : Nat
  deleted : List String
  key : Option String

/-- Store delete: the state after self._store.delete(k). -/
def delStore (st : String → Option Value) (k : String) :
    String → Option Value :=
  fun k' => if k' = k then none else st k'

/-- Cache.invalidate of cache.py: prune the arguments, render and prefix the
key exactly as __call__ does, then delete the key from the store; the
wrapped function is never invoked. -/
def Cache.invalidate (c : Cache) (st : String → Option Value)
    (args : List Value) (kw : Binding) : InvOut :=
  let b := c.pruneArgs args kw
  match render c.ruler b with
  | .error e => ⟨.error e, st, 0, [], none⟩
  | .ok k0 =>
    let k := addPfx c.pfx k0
    ⟨.ok (), delStore st k, 0, [k], some k⟩

/-- Cache.__get__ of cache.py, instance branch: attribute access through an
instance produces a copy of the Cache whose _func is the bound method
(self._func.__get__(instance, owner)); afterwards the callable is a
types.MethodType closing over the receiver, so __prune_arguments drops the
first declared name. `mbody` is the underlying function's behaviour as a
function of the receiver and the keyword-argument dict. -/
def Cache.bindReceiver (c : Cache)
    (mbody : Value → Binding → Except PyErr Value) (receiver : Value) :
    Cache :=
  { c with body := mbody receiver, isMethod := true }

/-! Basic lemmas about association-list lookup and zipping. -/

/-- Lookup misses when the name is not among the keys. -/
theorem alookup_eq_none_of_not_mem (ps : List (String × Value)) (n : String)
    (h : n ∉ ps.map Prod.fst) : alookup ps n = none := by
  induction ps with
  | nil => rfl
  | cons p rest ih =>
    obtain ⟨k, v⟩ := p
    simp only [List.map_cons, List.mem_cons, not_or] at h
    simp only [alookup]
    rw [if_neg (fun he => h.1 he.symm)]
    exact ih h.2

/-- Zipping never introduces keys beyond the name list. -/
theorem alookup_zip_of_not_mem (ns : List String) (vs : List Value) (n : String)
    (h : n ∉ ns) : alookup (ns.zip vs) n = none := by
  induction ns generalizing vs with
  | nil => rfl
  | cons m rest ih =>
    cases vs with
    | nil => rfl
    | cons v vrest =>
      simp only [List.mem_cons, not_or] at h
      simp only [List.zip_cons_cons, alookup]
      rw [if_neg (fun he => h.1 he.symm)]
      exact ih vrest h.2

/-- With distinct names, looking up the i-th name in the zip finds the i-th
value. -/
theorem alookup_zip_get (ns : List String) (vs : List Value) (i : Nat)
    (hnd : ns.Nodup) (hi : i < ns.length) (hv : i < vs.length) :
    alookup (ns.zip vs) (ns.get ⟨i, hi⟩) = some (vs.get ⟨i, hv⟩) := by
  induction ns generalizing vs i with
  | nil => exact absurd hi (Nat.not_lt_zero i)
  | cons m rest ih =>
    cases vs with
    | nil => exact absurd hv (Nat.not_lt_zero i)
    | cons v vrest =>
      cases i with
      | zero => simp [List.zip_cons_cons, alookup]
      | succ j =>
        have hm : m ∉ rest := (List.nodup_cons.mp hnd).1
        have hj : j < rest.length := Nat.lt_of_succ_lt_succ hi
        have hjv : j < vrest.length := Nat.lt_of_succ_lt_succ hv
        simp only [List.zip_cons_cons, alookup, List.get]
        rw [if_neg (fun he => hm (by rw [he]; exact List.get_mem rest j hj))]
        exact ih vrest j (List.nodup_cons.mp hnd).2 hj hjv

/-- With distinct names, a name whose index lies beyond the value list is not
found in the zip. -/
theorem alookup_zip_get_of_ge (ns : List String) (vs : List Value) (i : Nat)
    (hnd : ns.Nodup) (hi : i < ns.length) (hv : vs.length ≤ i) :
    alookup (ns.zip vs) (ns.get ⟨i, hi⟩) = none := by
  induction ns generalizing vs i with
  | nil => exact absurd hi (Nat.not_lt_zero i)
  | cons m rest ih =>
    cases vs with
    | nil => simp [List.zip_nil_right, alookup]
    | cons v vrest =>
      cases i with
      | zero => exact absurd hv (Nat.not_succ_le_zero _)
      | succ j =>
        have hm : m ∉ rest := (List.nodup_cons.mp hnd).1
        have hj : j < rest.length := Nat.lt_of_succ_lt_succ hi
        simp only [List.zip_cons_cons, alookup, List.get]
        rw [if_neg (fun he => hm (by rw [he]; exact List.get_mem rest j hj))]
        exact ih vrest j (List.nodup_cons.mp hnd).2 hj (Nat.le_of_succ_le_succ hv)

/-- Zipping a name list with a value list only consumes the first
ns.length values. -/
theorem zip_take_self (ns : List String) (vs : List Value) :
    ns.zip vs = ns.zip (vs.take ns.length) := by
  induction ns generalizing vs with
  | nil => rfl
  | cons m rest ih =>
    cases vs with
    | nil => rfl
    | cons v vrest =>
      simp only [List.zip_cons_cons, List.length_cons, List.take_succ_cons]
      exact congrArg (List.cons (m, v)) (ih vrest)

/-! Lemmas about key-template rendering. -/

/-- Rendering consults only the placeholder names of the template: bindings
that agree there render identically. -/
theorem render_congr (t : Tmpl) (b1 b2 : Binding)
    (h : ∀ n ∈ tmplNames t, b1 n = b2 n) : render t b1 = render t b2 := by
  induction t with
  | nil => rfl
  | cons p rest ih =>
    cases p with
    | lit s =>
      have hrest : render rest b1 = render rest b2 := ih (fun n hn => h n hn)
      simp only [render, hrest]
    | hole n path =>
      have hn : b1 n = b2 n := h n (by simp [tmplNames])
      have hrest : render rest b1 = render rest b2 :=
        ih (fun m hm => h m (by simp [tmplNames, hm]))
      simp only [render, hn, hrest]

/-- Rendering fails whenever some placeholder of the template is broken:
either its name is unbound, or its attribute path fails on the bound value. -/
theorem render_error_of_bad_hole (t : Tmpl) (b : Binding) (n : String)
    (path : List String) (hmem : TmplPart.hole n path ∈ t)
    (hbad : (b n = none) ∨ (∃ v e, b n = some v ∧ resolvePath v path = .error e)) :
    ∃ e, render t b = .error e := by
  induction t with
  | nil => cases hmem
  | cons p rest ih =>
    rcases List.mem_cons.mp hmem with heq | htail
    · subst heq
      rcases hbad with hnone | ⟨v, e, hv, hp⟩
      · exact ⟨.keyError n, by simp [render, hnone]⟩
      · exact ⟨e, by simp [render, hv, hp]⟩
    · cases p with
      | lit s =>
        obtain ⟨e, he⟩ := ih htail
        exact ⟨e, by simp [render, he]⟩
      | hole m q =>
        cases hbm : b m with
        | none => exact ⟨.keyError m, by simp [render, hbm]⟩
        | some v =>
          cases hp : resolvePath v q with
          | error e => exact ⟨e, by simp [render, hbm, hp]⟩
          | ok w =>
            obtain ⟨e, he⟩ := ih htail
            exact ⟨e, by simp [render, hbm, hp, he]⟩

/-! Lemmas about argument pruning. -/

/-- Pointwise description of __prune_arguments: a name resolves first from
the positional zip (the kwargs.update overwrite), then from the supplied
keyword arguments, then from the declared defaults; the two emptiness guards
of the Python code change nothing observable. -/
theorem prune_eval (ns : List String) (ds : List Value) (isM : Bool)
    (args : List Value) (kw : Binding) (n : String) :
    pruneArguments ns ds isM args kw n =
      ((alookup ((if isM then ns.drop 1 else ns).zip args) n).or
        ((kw n).or (alookup ((ns.drop (ns.length - ds.length)).zip ds) n))) := by
  cases args with
  | nil =>
    cases ds with
    | nil =>
      show kw n = _
      rw [List.zip_nil_right, List.zip_nil_right]
      cases kw n <;> rfl
    | cons d drest =>
      show (match kw n with | some v => some v | none => _) = _
      rw [List.zip_nil_right]
      cases kw n <;> rfl
  | cons a arest =>
    cases ds with
    | nil =>
      show (match alookup ((if isM then ns.drop 1 else ns).zip (a :: arest)) n with
            | some v => some v | none => kw n) = _
      rw [List.zip_nil_right]
      cases alookup ((if isM then ns.drop 1 else ns).zip (a :: arest)) n <;>
        cases kw n <;> rfl
    | cons d drest =>
      show (match (match alookup ((if isM then ns.drop 1 else ns).zip (a :: arest)) n with
                   | some v => some v | none => kw n) with
            | some v => some v | none => _) = _
      cases alookup ((if isM then ns.drop 1 else ns).zip (a :: arest)) n <;>
        cases kw n <;> rfl

/-- Renaming of the default-filling zone: dropping the receiver name first
reaches the same suffix of declared names, provided the defaults do not
cover the receiver. -/
theorem defNames_eq (ns : List String) (ds : List Value) (isM : Bool)
    (zn : List String) (hzn : zn = if isM then ns.drop 1 else ns)
    (hds : ds.length ≤ zn.length) :
    ns.drop (ns.length - ds.length) = zn.drop (zn.length - ds.length) := by
  cases isM with
  | false =>
    have hzn2 : zn = ns := by simpa using hzn
    rw [hzn2]
  | true =>
    have hzn2 : zn = ns.drop 1 := by simpa using hzn
    subst hzn2
    cases ns with
    | nil => simp
    | cons m rest =>
      simp only [List.drop_succ_cons, List.drop_zero] at hds ⊢
      have h1 : (m :: rest).length - ds.length = (rest.length - ds.length) + 1 := by
        simp only [List.length_cons]; omega
      rw [h1, List.drop_succ_cons]

/-- Pointwise description of __prune_arguments phrased entirely over the
names positional arguments zip against (the declared names minus the
receiver). -/
theorem prune_eval_zn (ns : List String) (ds : List Value) (isM : Bool)
    (zn : List String) (hzn : zn = if isM then ns.drop 1 else ns)
    (hds : ds.length ≤ zn.length)
    (args : List Value) (kw : Binding) (n : String) :
    pruneArguments ns ds isM args kw n =
      ((alookup (zn.zip args) n).or
        ((kw n).or (alookup ((zn.drop (zn.length - ds.length)).zip ds) n))) := by
  rw [prune_eval, ← hzn, defNames_eq ns ds isM zn hzn hds]

/-- Positional precedence inside __prune_arguments: a name that receives a
positional argument is bound to that positional value, whatever the keyword
arguments or defaults say, because kwargs.update(dict(zip(...))) overwrites
the keyword entry. -/
theorem prune_positional_wins (ns : List String) (ds : List Value) (isM : Bool)
    (zn : List String) (hzn : zn = if isM then ns.drop 1 else ns)
    (args : List Value) (kw : Binding) (i : Nat)
    (hnd : zn.Nodup) (hi : i < zn.length) (ha : i < args.length) :
    pruneArguments ns ds isM args kw (zn.get ⟨i, hi⟩) = some (args.get ⟨i, ha⟩) := by
  rw [prune_eval, ← hzn, alookup_zip_get zn args i hnd hi ha]
  rfl

/-- A call (args, kw) supplies the logical argument values vb over the
names zn that positional arguments zip against, with declared defaults ds:
positional arguments match vb in declaration order, keyword arguments name
declared parameters and match vb, and every declared name is covered
positionally, by keyword, or by a default equal to its vb value. -/
def Supplies (zn : List String) (ds : List Value) (vb : String → Value)
    (args : List Value) (kw : Binding) : Prop :=
  args.length ≤ zn.length ∧
  (∀ i (hi : i < args.length) (hj : i < zn.length),
      args.get ⟨i, hi⟩ = vb (zn.get ⟨i, hj⟩)) ∧
  (∀ n v, kw n = some v → n ∈ zn ∧ v = vb n) ∧
  (∀ i (hi : i < zn.length), i < args.length ∨
      (kw (zn.get ⟨i, hi⟩)).isSome = true ∨
      (zn.length - ds.length ≤ i ∧
        ds[i - (zn.length - ds.length)]? = some (vb (zn.get ⟨i, hi⟩))))

/-- Any way of supplying the logical values vb produces the same complete
binding: every declared name is bound to its vb value and no other name is
bound. -/
theorem supplies_prune (zn : List String) (ds : List Value) (vb : String → Value)
    (args : List Value) (kw : Binding)
    (hnd : zn.Nodup) (hds : ds.length ≤ zn.length)
    (hsup : Supplies zn ds vb args kw) (n : String) :
    ((alookup (zn.zip args) n).or
      ((kw n).or (alookup ((zn.drop (zn.length - ds.length)).zip ds) n)))
      = if n ∈ zn then some (vb n) else none := by
  obtain ⟨hlen, hpos, hkw, hcov⟩ := hsup
  by_cases hmem : n ∈ zn
  · rw [if_pos hmem]
    obtain ⟨⟨i, hi⟩, hget⟩ := List.mem_iff_get.mp hmem
    subst hget
    by_cases hia : i < args.length
    · rw [alookup_zip_get zn args i hnd hi hia, hpos i hia hi]
      rfl
    · rw [alookup_zip_get_of_ge zn args i hnd hi (Nat.le_of_not_lt hia)]
      cases hk : kw (zn.get ⟨i, hi⟩) with
      | some v =>
        rw [(hkw _ v hk).2]
        rfl
      | none =>
        rcases hcov i hi with h1 | h2 | ⟨hoff, hdef⟩
        · exact absurd h1 hia
        · rw [hk] at h2; cases h2
        · obtain ⟨hjlt, hjval⟩ := List.getElem?_eq_some.mp hdef
          have hj2 : zn.length - ds.length + (i - (zn.length - ds.length)) < zn.length := by
            omega
          have hdroplen : i - (zn.length - ds.length) <
              (zn.drop (zn.length - ds.length)).length := by
            rw [List.length_drop]; omega
          have hgetdrop : (zn.drop (zn.length - ds.length)).get
              ⟨i - (zn.length - ds.length), hdroplen⟩ = zn.get ⟨i, hi⟩ := by
            rw [← List.get_drop zn hj2]
            have hfin : (⟨zn.length - ds.length + (i - (zn.length - ds.length)), hj2⟩ :
                Fin zn.length) = ⟨i, hi⟩ :=
              Fin.ext (show zn.length - ds.length + (i - (zn.length - ds.length)) = i
                by omega)
            rw [hfin]
          have hnd2 : (zn.drop (zn.length - ds.length)).Nodup :=
            (List.drop_sublist _ zn).nodup hnd
          rw [← hgetdrop,
            alookup_zip_get (zn.drop (zn.length - ds.length)) ds _ hnd2 hdroplen hjlt]
          have : ds.get ⟨i - (zn.length - ds.length), hjlt⟩ =
              vb (zn.get ⟨i, hi⟩) := by
            rw [List.get_eq_getElem, hjval]
          rw [hgetdrop, this]
          rfl
  · rw [if_neg hmem, alookup_zip_of_not_mem zn args n hmem]
    have hkwn : kw n = none := by
      cases hk : kw n with
      | none => rfl
      | some v => exact absurd (hkw n v hk).1 hmem
    rw [hkwn,
      alookup_zip_of_not_mem _ ds n (fun hc => hmem (List.mem_of_mem_drop hc))]
    rfl

/-! Case analysis of the call and invalidation paths. -/

/-- The four possible outcomes of Cache.__call__: rendering raises; a hit
returns the cached value untouched; a miss whose function invocation raises
propagates the error without writing; a miss that computes stores exactly
once and returns the computed result. -/
theorem call_cases (c : Cache) (st : String → Option Value)
    (args : List Value) (kw : Binding) :
    (∃ e, render c.ruler (c.pruneArgs args kw) = .error e ∧
        c.call st args kw = ⟨.error e, st, 0, [], none⟩) ∨
    (∃ k0 v, render c.ruler (c.pruneArgs args kw) = .ok k0 ∧
        st (addPfx c.pfx k0) = some v ∧
        c.call st args kw = ⟨.ok v, st, 0, [], some (addPfx c.pfx k0)⟩) ∨
    (∃ k0 e, render c.ruler (c.pruneArgs args kw) = .ok k0 ∧
        st (addPfx c.pfx k0) = none ∧ c.body (c.pruneArgs args kw) = .error e ∧
        c.call st args kw = ⟨.error e, st, 1, [], some (addPfx c.pfx k0)⟩) ∨
    (∃ k0 r, render c.ruler (c.pruneArgs args kw) = .ok k0 ∧
        st (addPfx c.pfx k0) = none ∧ c.body (c.pruneArgs args kw) = .ok r ∧
        c.call st args kw = ⟨.ok r, setStore st (addPfx c.pfx k0) r, 1,
          [(addPfx c.pfx k0, r, c.timeout)], some (addPfx c.pfx k0)⟩) := by
  cases hr : render c.ruler (c.pruneArgs args kw) with
  | error e => exact Or.inl ⟨e, rfl, by simp [Cache.call, hr]⟩
  | ok k0 =>
    cases hs : st (addPfx c.pfx k0) with
    | some v =>
      exact Or.inr (Or.inl ⟨k0, v, rfl, hs, by simp [Cache.call, hr, hs]⟩)
    | none =>
      cases hb : c.body (c.pruneArgs args kw) with
      | error e =>
        exact Or.inr (Or.inr (Or.inl ⟨k0, e, rfl, hs, rfl,
          by simp [Cache.call, hr, hs, hb]⟩))
      | ok r =>
        exact Or.inr (Or.inr (Or.inr ⟨k0, r, rfl, hs, rfl,
          by simp [Cache.call, hr, hs, hb]⟩))

/-- The two possible outcomes of Cache.invalidate: rendering raises, or the
computed key is deleted; the wrapped function is invoked in neither. -/
theorem invalidate_cases (c : Cache) (st : String → Option Value)
    (args : List Value) (kw : Binding) :
    (∃ e, render c.ruler (c.pruneArgs args kw) = .error e ∧
        c.invalidate st args kw = ⟨.error e, st, 0, [], none⟩) ∨
    (∃ k0, render c.ruler (c.pruneArgs args kw) = .ok k0 ∧
        c.invalidate st args kw = ⟨.ok (), delStore st (addPfx c.pfx k0), 0,
          [addPfx c.pfx k0], some (addPfx c.pfx k0)⟩) := by
  cases hr : render c.ruler (c.pruneArgs args kw) with
  | error e => exact Or.inl ⟨e, rfl, by simp [Cache.invalidate, hr]⟩
  | ok k0 => exact Or.inr ⟨k0, rfl, by simp [Cache.invalidate, hr]⟩

/-- Key-render failure aborts __call__ before any store interaction. -/
theorem call_render_err (c : Cache) (st : String → Option Value)
    (args : List Value) (kw : Binding) (e : PyErr)
    (hr : render c.ruler (c.pruneArgs args kw) = .error e) :
    c.call st args kw = ⟨.error e, st, 0, [], none⟩ := by
  simp [Cache.call, hr]

/-- A hit returns the cached value with no invocation and no write. -/
theorem call_hit (c : Cache) (st : String → Option Value)
    (args : List Value) (kw : Binding) (k0 : String) (v : Value)
    (hr : render c.ruler (c.pruneArgs args kw) = .ok k0)
    (hs : st (addPfx c.pfx k0) = some v) :
    c.call st args kw = ⟨.ok v, st, 0, [], some (addPfx c.pfx k0)⟩ := by
  simp [Cache.call, hr, hs]

/-- A miss whose computation succeeds invokes once, writes once, returns. -/
theorem call_miss_ok (c : Cache) (st : String → Option Value)
    (args : List Value) (kw : Binding) (k0 : String) (r : Value)
    (hr : render c.ruler (c.pruneArgs args kw) = .ok k0)
    (hm : st (addPfx c.pfx k0) = none)
    (hb : c.body (c.pruneArgs args kw) = .ok r) :
    c.call st args kw = ⟨.ok r, setStore st (addPfx c.pfx k0) r, 1,
      [(addPfx c.pfx k0, r, c.timeout)], some (addPfx c.pfx k0)⟩ := by
  simp [Cache.call, hr, hm, hb]

/-- A miss whose computation raises propagates the error without writing. -/
theorem call_miss_err (c : Cache) (st : String → Option Value)
    (args : List Value) (kw : Binding) (k0 : String) (e : PyErr)
    (hr : render c.ruler (c.pruneArgs args kw) = .ok k0)
    (hm : st (addPfx c.pfx k0) = none)
    (hb : c.body (c.pruneArgs args kw) = .error e) :
    c.call st args kw = ⟨.error e, st, 1, [], some (addPfx c.pfx k0)⟩ := by
  simp [Cache.call, hr, hm, hb]

/-- The key a call computes is a function of the binding, the template and
the prefix alone — not of the store. -/
theorem call_key (c : Cache) (st : String → Option Value)
    (args : List Value) (kw : Binding) :
    (c.call st args kw).key =
      match render c.ruler (c.pruneArgs args kw) with
      | .error _ => none
      | .ok k0 => some (addPfx c.pfx k0) := by
  cases hr : render c.ruler (c.pruneArgs args kw) with
  | error e => rw [call_render_err c st args kw e hr]
  | ok k0 =>
    cases hs : st (addPfx c.pfx k0) with
    | some v => rw [call_hit c st args kw k0 v hr hs]
    | none =>
      cases hb : c.body (c.pruneArgs args kw) with
      | error e => rw [call_miss_err c st args kw k0 e hr hs hb]
      | ok r => rw [call_miss_ok c st args kw k0 r hr hs hb]

/-- Invalidate computes its key from the binding, template and prefix,
exactly as __call__ does. -/
theorem invalidate_key (c : Cache) (st : String → Option Value)
    (args : List Value) (kw : Binding) :
    (c.invalidate st args kw).key =
      match render c.ruler (c.pruneArgs args kw) with
      | .error _ => none
      | .ok k0 => some (addPfx c.pfx k0) := by
  cases hr : render c.ruler (c.pruneArgs args kw) with
  | error e => simp [Cache.invalidate, hr]
  | ok k0 => simp [Cache.invalidate, hr]

/-! Claim theorems. -/

/-- C1: on a hit (the store's get for the computed key returns a value, not
the NOT_FOUND sentinel) the cached value is returned, the wrapped function
is not invoked and no store write occurs; on a miss the wrapped function is
invoked exactly once, exactly one set is issued under the computed key, and
the computed result is returned; consequently a repeated invocation with
identical arguments after the first populating call performs zero further
invocations and zero further writes. -/
theorem C1_get_or_compute_protocol (c : Cache) (st : String → Option Value)
    (args : List Value) (kw : Binding) :
    (∀ k v, (c.call st args kw).key = some k → st k = some v →
        (c.call st args kw).res = .ok v ∧ (c.call st args kw).fcalls = 0 ∧
        (c.call st args kw).setOps = [] ∧ (c.call st args kw).st = st) ∧
    (∀ k r, (c.call st args kw).key = some k → st k = none →
        c.body (c.pruneArgs args kw) = .ok r →
        (c.call st args kw).res = .ok r ∧ (c.call st args kw).fcalls = 1 ∧
        (c.call st args kw).setOps = [(k, r, c.timeout)] ∧
        (c.call st args kw).st k = some r) ∧
    (∀ r, (c.call st args kw).res = .ok r → (c.call st args kw).fcalls = 1 →
        (c.call (c.call st args kw).st args kw).res = .ok r ∧
        (c.call (c.call st args kw).st args kw).fcalls = 0 ∧
        (c.call (c.call st args kw).st args kw).setOps = []) := by
  rcases call_cases c st args kw with ⟨e, hr, hout⟩ | ⟨k0, v0, hr, hs, hout⟩ |
    ⟨k0, e, hr, hs, hb, hout⟩ | ⟨k0, r0, hr, hs, hb, hout⟩
  · refine ⟨fun k v hk _ => ?_, fun k r hk _ _ => ?_, fun r hres hfc => ?_⟩
    · rw [hout] at hk; cases hk
    · rw [hout] at hk; cases hk
    · rw [hout] at hres; cases hres
  · refine ⟨fun k v hk hv => ?_, fun k r hk hm _ => ?_, fun r hres hfc => ?_⟩
    · rw [hout] at hk ⊢
      have hkk : k = addPfx c.pfx k0 := (Option.some.inj hk).symm
      subst hkk
      rw [hs] at hv
      exact ⟨by rw [Option.some.inj hv], rfl, rfl, rfl⟩
    · rw [hout] at hk
      have hkk : k = addPfx c.pfx k0 := (Option.some.inj hk).symm
      subst hkk
      rw [hs] at hm; cases hm
    · rw [hout] at hfc; cases hfc
  · refine ⟨fun k v hk hv => ?_, fun k r hk _ hbr => ?_, fun r hres _ => ?_⟩
    · rw [hout] at hk
      have hkk : k = addPfx c.pfx k0 := (Option.some.inj hk).symm
      subst hkk
      rw [hs] at hv; cases hv
    · rw [hb] at hbr; cases hbr
    · rw [hout] at hres; cases hres
  · refine ⟨fun k v hk hv => ?_, fun k r hk _ hbr => ?_, fun r hres _ => ?_⟩
    · rw [hout] at hk
      have hkk : k = addPfx c.pfx k0 := (Option.some.inj hk).symm
      subst hkk
      rw [hs] at hv; cases hv
    · rw [hout] at hk ⊢
      have hkk : k = addPfx c.pfx k0 := (Option.some.inj hk).symm
      subst hkk
      have heq : Except.ok (ε := PyErr) r0 = Except.ok r := hb.symm.trans hbr
      injection heq with hrr
      subst hrr
      exact ⟨rfl, rfl, rfl, by simp [setStore]⟩
    · rw [hout] at hres ⊢
      have heq : Except.ok (ε := PyErr) r0 = Except.ok r := hres
      injection heq with hrr
      subst hrr
      have hs2 : setStore st (addPfx c.pfx k0) r0 (addPfx c.pfx k0) = some r0 := by
        simp [setStore]
      rw [call_hit c (setStore st (addPfx c.pfx k0) r0) args kw k0 r0 hr hs2]
      exact ⟨rfl, rfl, rfl⟩

/-- C9: a template placeholder naming an unbound argument, or carrying an
attribute path unresolvable on the bound value, makes key rendering fail;
the failure is surfaced to the caller as the call's result, the wrapped
function is never invoked, and the store is untouched. -/
theorem C9_render_failure_guards (c : Cache) (st : String → Option Value)
    (args : List Value) (kw : Binding) :
    (∀ n path, TmplPart.hole n path ∈ c.ruler →
        (c.pruneArgs args kw n = none ∨
          (∃ v e, c.pruneArgs args kw n = some v ∧
            resolvePath v path = .error e)) →
        ∃ e, render c.ruler (c.pruneArgs args kw) = .error e) ∧
    (∀ e, render c.ruler (c.pruneArgs args kw) = .error e →
        (c.call st args kw).res = .error e ∧ (c.call st args kw).fcalls = 0 ∧
        (c.call st args kw).setOps = [] ∧ (c.call st args kw).st = st) := by
  constructor
  · intro n path hmem hbad
    exact render_error_of_bad_hole c.ruler (c.pruneArgs args kw) n path hmem hbad
  · intro e hr
    rw [call_render_err c st args kw e hr]
    exact ⟨rfl, rfl, rfl, rfl⟩

/-- C2: key selectivity — when the template references only names in S,
two calls whose pruned argument bindings agree on every name in S compute
the identical cache key, and once the first call has populated the store,
the second returns the first's cached result with no wrapped-function
invocation and no store write. -/
theorem C2_key_selectivity (c : Cache) (st : String → Option Value)
    (S : List String) (args1 : List Value) (kw1 : Binding)
    (args2 : List Value) (kw2 : Binding)
    (hsub : ∀ n ∈ tmplNames c.ruler, n ∈ S)
    (hagree : ∀ n ∈ S, c.pruneArgs args1 kw1 n = c.pruneArgs args2 kw2 n) :
    (c.call st args1 kw1).key = (c.call st args2 kw2).key ∧
    (∀ k r, (c.call st args1 kw1).key = some k → st k = none →
        (c.call st args1 kw1).res = .ok r →
        (c.call (c.call st args1 kw1).st args2 kw2).res = .ok r ∧
        (c.call (c.call st args1 kw1).st args2 kw2).fcalls = 0 ∧
        (c.call (c.call st args1 kw1).st args2 kw2).setOps = []) := by
  have hrend : render c.ruler (c.pruneArgs args1 kw1) =
      render c.ruler (c.pruneArgs args2 kw2) :=
    render_congr c.ruler _ _ (fun n hn => hagree n (hsub n hn))
  constructor
  · rw [call_key, call_key, hrend]
  · intro k r hk hm hres
    rcases call_cases c st args1 kw1 with ⟨e, hr1, hout⟩ | ⟨k0, v, hr1, hs1, hout⟩ |
      ⟨k0, e, hr1, hs1, hb1, hout⟩ | ⟨k0, r0, hr1, hs1, hb1, hout⟩
    · rw [hout] at hk; cases hk
    · rw [hout] at hk
      have hkk : k = addPfx c.pfx k0 := (Option.some.inj hk).symm
      subst hkk
      rw [hs1] at hm; cases hm
    · rw [hout] at hres; cases hres
    · rw [hout] at hk hres ⊢
      have hkk : k = addPfx c.pfx k0 := (Option.some.inj hk).symm
      subst hkk
      have heq : Except.ok (ε := PyErr) r0 = Except.ok r := hres
      injection heq with hrr
      subst hrr
      have hr2 : render c.ruler (c.pruneArgs args2 kw2) = .ok k0 := by
        rw [← hrend]; exact hr1
      have hs2 : setStore st (addPfx c.pfx k0) r0 (addPfx c.pfx k0) = some r0 := by
        simp [setStore]
      rw [call_hit c (setStore st (addPfx c.pfx k0) r0) args2 kw2 k0 r0 hr2 hs2]
      exact ⟨rfl, rfl, rfl⟩

/-- C3: argument-style key equivalence — any two ways of supplying the same
logical argument values vb (all positional, all named, mixed, or omitting
parameters whose defaults equal the supplied values) produce the same
complete binding — every declared zippable name bound to its vb value — and
therefore the identical rendered cache key. -/
theorem C3_argument_style_equivalence (c : Cache) (st : String → Option Value)
    (vb : String → Value) (zn : List String)
    (args1 : List Value) (kw1 : Binding) (args2 : List Value) (kw2 : Binding)
    (hzn : zn = if c.isMethod then c.argNames.drop 1 else c.argNames)
    (hnd : zn.Nodup) (hds : c.defaults.length ≤ zn.length)
    (h1 : Supplies zn c.defaults vb args1 kw1)
    (h2 : Supplies zn c.defaults vb args2 kw2) :
    (∀ n, c.pruneArgs args1 kw1 n = if n ∈ zn then some (vb n) else none) ∧
    (∀ n, c.pruneArgs args1 kw1 n = c.pruneArgs args2 kw2 n) ∧
    (c.call st args1 kw1).key = (c.call st args2 kw2).key := by
  have hcan1 : ∀ n, c.pruneArgs args1 kw1 n =
      if n ∈ zn then some (vb n) else none := by
    intro n
    rw [Cache.pruneArgs,
      prune_eval_zn c.argNames c.defaults c.isMethod zn hzn hds args1 kw1 n,
      supplies_prune zn c.defaults vb args1 kw1 hnd hds h1 n]
  have hcan2 : ∀ n, c.pruneArgs args2 kw2 n =
      if n ∈ zn then some (vb n) else none := by
    intro n
    rw [Cache.pruneArgs,
      prune_eval_zn c.argNames c.defaults c.isMethod zn hzn hds args2 kw2 n,
      supplies_prune zn c.defaults vb args2 kw2 hnd hds h2 n]
  have heq : ∀ n, c.pruneArgs args1 kw1 n = c.pruneArgs args2 kw2 n := by
    intro n; rw [hcan1 n, hcan2 n]
  exact ⟨hcan1, heq, by rw [call_key, call_key,
    render_congr c.ruler _ _ (fun n _ => heq n)]⟩

/-- C4: invoke/invalidate key symmetry — invalidate computes exactly the
key an invocation with the same arguments computes (prefix concatenation
included, and independently of either store's contents), never invokes the
wrapped function, and deletes exactly that key from the store. -/
theorem C4_invalidate_key_symmetry (c : Cache)
    (stc sti : String → Option Value) (args : List Value) (kw : Binding) :
    (c.invalidate sti args kw).key = (c.call stc args kw).key ∧
    (c.invalidate sti args kw).fcalls = 0 ∧
    (∀ k, (c.invalidate sti args kw).key = some k →
        (c.invalidate sti args kw).res = .ok () ∧
        (c.invalidate sti args kw).deleted = [k] ∧
        (c.invalidate sti args kw).st k = none ∧
        (∀ k2, k2 ≠ k → (c.invalidate sti args kw).st k2 = sti k2)) := by
  rcases invalidate_cases c sti args kw with ⟨e, hr, hout⟩ | ⟨k0, hr, hout⟩
  · refine ⟨?_, ?_, ?_⟩
    · rw [invalidate_key, call_key, hr]
    · rw [hout]
    · intro k hk; rw [hout] at hk; cases hk
  · refine ⟨?_, ?_, ?_⟩
    · rw [invalidate_key, call_key, hr]
    · rw [hout]
    · intro k hk
      rw [hout] at hk ⊢
      have hkk : k = addPfx c.pfx k0 := (Option.some.inj hk).symm
      subst hkk
      refine ⟨rfl, rfl, by simp [delStore], ?_⟩
      intro k2 hne
      simp [delStore, hne]

/-- C5: receiver exclusion and cross-instance sharing — binding a wrapped
method to two different receivers leaves argument pruning and the computed
cache key unchanged (the receiver never enters the positional zip, and a
receiver name that is not otherwise supplied stays outside the binding, so
the template cannot reference it); once the first receiver's call has
populated the store, the second receiver's call with the same arguments
returns that cached result with no invocation and no write. -/
theorem C5_receiver_exclusion_sharing (c : Cache)
    (mbody : Value → Binding → Except PyErr Value) (r1 r2 : Value)
    (st : String → Option Value) (args : List Value) (kw : Binding) :
    (∀ n, (c.bindReceiver mbody r1).pruneArgs args kw n =
        (c.bindReceiver mbody r2).pruneArgs args kw n) ∧
    ((c.bindReceiver mbody r1).call st args kw).key =
      ((c.bindReceiver mbody r2).call st args kw).key ∧
    (∀ s0 rest, c.argNames = s0 :: rest → s0 ∉ rest → kw s0 = none →
        c.defaults.length ≤ rest.length →
        (c.bindReceiver mbody r1).pruneArgs args kw s0 = none) ∧
    (∀ k v, ((c.bindReceiver mbody r1).call st args kw).key = some k →
        st k = none →
        ((c.bindReceiver mbody r1).call st args kw).res = .ok v →
        ((c.bindReceiver mbody r2).call
            ((c.bindReceiver mbody r1).call st args kw).st args kw).res = .ok v ∧
        ((c.bindReceiver mbody r2).call
            ((c.bindReceiver mbody r1).call st args kw).st args kw).fcalls = 0 ∧
        ((c.bindReceiver mbody r2).call
            ((c.bindReceiver mbody r1).call st args kw).st args kw).setOps = []) := by
  refine ⟨fun n => rfl, ?_, ?_, ?_⟩
  · rw [call_key, call_key]; rfl
  · intro s0 rest hns hs0 hkw hds
    show pruneArguments c.argNames c.defaults true args kw s0 = none
    have hzn : rest = if (true : Bool) then c.argNames.drop 1 else c.argNames := by
      rw [hns]; rfl
    rw [prune_eval_zn c.argNames c.defaults true rest hzn hds args kw s0]
    rw [alookup_zip_of_not_mem rest args s0 hs0, hkw,
      alookup_zip_of_not_mem _ c.defaults s0
        (fun hc => hs0 (List.mem_of_mem_drop hc))]
    rfl
  · intro k v hk hm hres
    rcases call_cases (c.bindReceiver mbody r1) st args kw with
      ⟨e, hr1, hout⟩ | ⟨k0, v0, hr1, hs1, hout⟩ |
      ⟨k0, e, hr1, hs1, hb1, hout⟩ | ⟨k0, r0, hr1, hs1, hb1, hout⟩
    · rw [hout] at hk; cases hk
    · rw [hout] at hk
      have hkk : k = addPfx (c.bindReceiver mbody r1).pfx k0 :=
        (Option.some.inj hk).symm
      subst hkk
      rw [hs1] at hm; cases hm
    · rw [hout] at hres; cases hres
    · rw [hout] at hk hres ⊢
      have hkk : k = addPfx (c.bindReceiver mbody r1).pfx k0 :=
        (Option.some.inj hk).symm
      subst hkk
      have heq : Except.ok (ε := PyErr) r0 = Except.ok v := hres
      injection heq with hrr
      subst hrr
      have hr2 : render (c.bindReceiver mbody r2).ruler
          ((c.bindReceiver mbody r2).pruneArgs args kw) = .ok k0 := hr1
      have hs2 : setStore st (addPfx (c.bindReceiver mbody r1).pfx k0) r0
          (addPfx (c.bindReceiver mbody r1).pfx k0) = some r0 := by
        simp [setStore]
      rw [call_hit (c.bindReceiver mbody r2) _ args kw k0 r0 hr2 hs2]
      exact ⟨rfl, rfl, rfl⟩

/-- C10: a plain wrapped function called with more positional arguments
than declared parameters behaves exactly as if only the first n positional
arguments had been supplied: the excess is silently dropped by the zip, and
the binding, key, store interactions and returned value coincide. -/
theorem C10_excess_positional_dropped (c : Cache) (st : String → Option Value)
    (args : List Value) (kw : Binding)
    (hplain : c.isMethod = false) (hlen : c.argNames.length < args.length) :
    (∀ n, c.pruneArgs args kw n =
        c.pruneArgs (args.take c.argNames.length) kw n) ∧
    c.call st args kw = c.call st (args.take c.argNames.length) kw := by
  have hb : c.pruneArgs args kw = c.pruneArgs (args.take c.argNames.length) kw := by
    funext n
    have hzn : c.argNames = if c.isMethod then c.argNames.drop 1 else c.argNames := by
      rw [hplain]; rfl
    rw [Cache.pruneArgs, Cache.pruneArgs, prune_eval, prune_eval, ← hzn,
      zip_take_self c.argNames args]
  exact ⟨fun n => by rw [hb], by simp [Cache.call, Cache.pruneArgs] at hb ⊢; rw [hb]⟩

/-! Corrected claims: C6 (miss-path invocation style), C7 (precedence
between positional and named arguments), C8 (missing required
parameters). -/

/-- Modelled from the spec: the invocation discipline the spec claims for
the miss path — "invoke the wrapped function with the full original
positional/named arguments (not the normalized binding)". This is Python
plain-call semantics on the original (args, kwargs) pair: more positional
arguments than declared parameters raise TypeError; a name supplied both
positionally and by keyword raises TypeError (multiple values); omitted
names fall back to the function's own defaults; a still-missing required
name raises TypeError; only then does the body run on the binding Python
itself constructs. (Keyword arguments are a lookup function here, so the
unexpected-keyword TypeError is not modelled; no claim needs it.) -/
def pyInvoke (ns : List String) (ds : List Value)
    (body : Binding → Except PyErr Value)
    (args : List Value) (kw : Binding) : Except PyErr Value :=
  if ns.length < args.length then .error .typeError
  else if (ns.take args.length).any (fun n => (kw n).isSome) then .error .typeError
  else
    let b : Binding := fun n =>
      match alookup (ns.zip args) n with
      | some v => some v
      | none =>
        match kw n with
        | some v => some v
        | none => alookup ((ns.drop (ns.length - ds.length)).zip ds) n
    if ns.all (fun n => (b n).isSome) then body b else .error .typeError

/-- Identity function on its single declared parameter, used to observe how
the miss path invokes a wrapped callable. -/
def c6body : Binding → Except PyErr Value := fun b =>
  match b "a" with
  | some v => .ok v
  | none => .error .typeError

/-- Cache wrapping c6body with one declared parameter and template k:{a}. -/
def c6cache : Cache :=
  ⟨none, [TmplPart.lit "k:", TmplPart.hole "a" []], DEFAULT_TIMEOUT,
   ["a"], [], false, c6body⟩

/-- Empty store for the C6 scenario. -/
def c6store : String → Option Value := fun _ => none

/-- C6 counterexample: calling the wrapped single-parameter function with
the original argument list (1, 2) would raise TypeError under Python call
semantics, yet the miss path returns a computed value after one invocation
— so the wrapped function was not invoked with the full original
positional arguments as supplied; it was invoked with the normalized
binding. -/
theorem C6_counterexample :
    (c6cache.call c6store [Value.int 1, Value.int 2] emptyKw).res =
      .ok (Value.int 1) ∧
    (c6cache.call c6store [Value.int 1, Value.int 2] emptyKw).fcalls = 1 ∧
    pyInvoke ["a"] [] c6body [Value.int 1, Value.int 2] emptyKw =
      .error .typeError :=
  ⟨rfl, rfl, rfl⟩

/-- C6 (amended): on a miss the wrapped function is invoked exactly once
with the normalized argument binding — the pruned kwargs dict, defaults
filled in, passed entirely as named arguments — and the result is stored
under the computed key with the configured timeout and returned. -/
theorem C6_miss_invokes_normalized_binding (c : Cache)
    (st : String → Option Value) (args : List Value) (kw : Binding)
    (k0 : String) (r : Value)
    (hr : render c.ruler (c.pruneArgs args kw) = .ok k0)
    (hm : st (addPfx c.pfx k0) = none)
    (hb : c.body (c.pruneArgs args kw) = .ok r) :
    (c.call st args kw).res = .ok r ∧ (c.call st args kw).fcalls = 1 ∧
    (c.call st args kw).setOps = [(addPfx c.pfx k0, r, c.timeout)] := by
  rw [call_miss_ok c st args kw k0 r hr hm hb]
  exact ⟨rfl, rfl, rfl⟩

/-- C6 witness: the concrete miss above invokes once, stores once with the
default timeout, and returns the value computed from the pruned binding. -/
theorem C6_witness :
    (c6cache.call c6store [Value.int 1, Value.int 2] emptyKw).res =
      .ok (Value.int 1) ∧
    (c6cache.call c6store [Value.int 1, Value.int 2] emptyKw).fcalls = 1 ∧
    (c6cache.call c6store [Value.int 1, Value.int 2] emptyKw).setOps =
      [("k:1", Value.int 1, 3600)] :=
  C6_miss_invokes_normalized_binding c6cache c6store
    [Value.int 1, Value.int 2] emptyKw "k:1" (Value.int 1) rfl rfl rfl

/-- Keyword arguments supplying a=4, used to conflict with a positional
argument for the same name. -/
def c7kw : Binding := fun n => if n = "a" then some (Value.int 4) else none

/-- C7 counterexample: in a call supplying a positionally as 1 and by
keyword as 4, the binding holds the positional 1, not the named 4 — the
named argument does not take precedence. -/
theorem C7_counterexample :
    pruneArguments ["a", "b"] [] false [Value.int 1] c7kw "a" =
      some (Value.int 1) ∧
    ¬ pruneArguments ["a", "b"] [] false [Value.int 1] c7kw "a" =
      some (Value.int 4) := by
  refine ⟨rfl, fun h => ?_⟩
  have h0 : pruneArguments ["a", "b"] [] false [Value.int 1] c7kw "a" =
      some (Value.int 1) := rfl
  have h1 : some (Value.int 1) = some (Value.int 4) := h0.symm.trans h
  have h2 : Value.int 1 = Value.int 4 := Option.some.inj h1
  have h3 : (1 : Int) = 4 := Value.int.inj h2
  omega

/-- C7 (amended): when the same parameter name is supplied both positionally
and as a named argument in one call, the positional value takes precedence
in the resulting binding — kwargs.update(dict(zip(...))) overwrites the
named entry — and hence determines the rendered cache key. -/
theorem C7_positional_over_named (ns : List String) (ds : List Value)
    (isM : Bool) (zn : List String) (args : List Value) (kw : Binding)
    (i : Nat) (w : Value)
    (hzn : zn = if isM then ns.drop 1 else ns) (hnd : zn.Nodup)
    (hi : i < zn.length) (ha : i < args.length)
    (hkw : kw (zn.get ⟨i, hi⟩) = some w) :
    pruneArguments ns ds isM args kw (zn.get ⟨i, hi⟩) =
      some (args.get ⟨i, ha⟩) :=
  prune_positional_wins ns ds isM zn hzn args kw i hnd hi ha

/-- C7 witness: the conflicted name a binds to the positional 1. -/
theorem C7_witness :
    pruneArguments ["a", "b"] [] false [Value.int 1] c7kw "a" =
      some (Value.int 1) :=
  C7_positional_over_named ["a", "b"] [] false ["a", "b"] [Value.int 1]
    c7kw 0 (Value.int 4) rfl (by decide) (by decide) (by decide) rfl

/-- Two-required-parameter function a + b, used to observe calls missing a
required parameter. -/
def c8body : Binding → Except PyErr Value := fun b =>
  match b "a", b "b" with
  | some (.int x), some (.int y) => .ok (.int (x + y))
  | _, _ => .error .typeError

/-- Cache wrapping c8body whose template only references a. -/
def c8cache : Cache :=
  ⟨none, [TmplPart.lit "k:", TmplPart.hole "a" []], DEFAULT_TIMEOUT,
   ["a", "b"], [], false, c8body⟩

/-- Store already holding the key the C8 call computes. -/
def c8store : String → Option Value :=
  fun k => if k = "k:1" then some (Value.int 42) else none

/-- C8 counterexample: the call supplies only a, leaving the required
parameter b absent after binding, yet no binding error is raised: the key
is still computed and consulted, and the cached value is returned with zero
invocations — the absence is silently tolerated. -/
theorem C8_counterexample :
    c8cache.pruneArgs [Value.int 1] emptyKw "b" = none ∧
    (c8cache.call c8store [Value.int 1] emptyKw).key = some "k:1" ∧
    (c8cache.call c8store [Value.int 1] emptyKw).res = .ok (Value.int 42) ∧
    (c8cache.call c8store [Value.int 1] emptyKw).fcalls = 0 :=
  ⟨rfl, rfl, rfl, rfl⟩

/-- C8 (amended): binding never fails — a required (no-default) parameter
absent after positional zipping, named merge and default filling is simply
left out of the binding; the key is still rendered and the store consulted,
and on a hit the cached value is returned with no error and no invocation.
The absence surfaces only later: as a key-render error if the template
references the missing name, or as the wrapped function's own error on a
miss. -/
theorem C8_missing_required_tolerated (c : Cache)
    (st : String → Option Value) (args : List Value) (kw : Binding)
    (n : String) (k0 : String) (v : Value)
    (hmem : n ∈ c.argNames) (hmiss : c.pruneArgs args kw n = none)
    (hr : render c.ruler (c.pruneArgs args kw) = .ok k0)
    (hhit : st (addPfx c.pfx k0) = some v) :
    (c.call st args kw).res = .ok v ∧ (c.call st args kw).fcalls = 0 ∧
    (c.call st args kw).key = some (addPfx c.pfx k0) := by
  rw [call_hit c st args kw k0 v hr hhit]
  exact ⟨rfl, rfl, rfl⟩

/-- C8 witness: with required b unbound, the concrete call still hits and
returns the cached 42 without invoking the wrapped function. -/
theorem C8_witness :
    (c8cache.call c8store [Value.int 1] emptyKw).res = .ok (Value.int 42) ∧
    (c8cache.call c8store [Value.int 1] emptyKw).fcalls = 0 ∧
    (c8cache.call c8store [Value.int 1] emptyKw).key = some "k:1" :=
  C8_missing_required_tolerated c8cache c8store [Value.int 1] emptyKw
    "b" "k:1" (Value.int 42) (by decide) rfl rfl rfl

/-! Concrete instances used by the witnesses. -/

/-- The doctest function add(a, b, c=1) = a + b + c on the binding. -/
def c1body : Binding → Except PyErr Value := fun b =>
  match b "a", b "b", b "c" with
  | some (.int x), some (.int y), some (.int z) => .ok (.int (x + y + z))
  | _, _, _ => .error .typeError

/-- Cache for add with template add:{a}:{b}. -/
def c1cache : Cache :=
  ⟨none, [TmplPart.lit "add:", TmplPart.hole "a" [], TmplPart.lit ":",
    TmplPart.hole "b" []], DEFAULT_TIMEOUT, ["a", "b", "c"], [Value.int 1],
   false, c1body⟩

/-- Initially empty store. -/
def c1store : String → Option Value := fun _ => none

/-- C1 witness: after add(3, 2) populates the store, the identical repeat
call hits — same result, zero invocations, zero writes. -/
theorem C1_witness :
    (c1cache.call (c1cache.call c1store [Value.int 3, Value.int 2] emptyKw).st
        [Value.int 3, Value.int 2] emptyKw).res = .ok (Value.int 6) ∧
    (c1cache.call (c1cache.call c1store [Value.int 3, Value.int 2] emptyKw).st
        [Value.int 3, Value.int 2] emptyKw).fcalls = 0 ∧
    (c1cache.call (c1cache.call c1store [Value.int 3, Value.int 2] emptyKw).st
        [Value.int 3, Value.int 2] emptyKw).setOps = [] :=
  (C1_get_or_compute_protocol c1cache c1store [Value.int 3, Value.int 2]
    emptyKw).2.2 (Value.int 6) rfl rfl

/-- The doctest function add(a, b, c=1) = a + b + c on the binding. -/
def c2body : Binding → Except PyErr Value := fun b =>
  match b "a", b "b", b "c" with
  | some (.int x), some (.int y), some (.int z) => .ok (.int (x + y + z))
  | _, _, _ => .error .typeError

/-- Cache for add with template add:{a}:{b}, which does not mention c. -/
def c2cache : Cache :=
  ⟨none, [TmplPart.lit "add:", TmplPart.hole "a" [], TmplPart.lit ":",
    TmplPart.hole "b" []], DEFAULT_TIMEOUT, ["a", "b", "c"], [Value.int 1],
   false, c2body⟩

/-- Initially empty store. -/
def c2store : String → Option Value := fun _ => none

/-- Keyword arguments b=3, c=2 of the doctest call add(3, b=3, c=2). -/
def c2kw : Binding := fun n =>
  if n = "b" then some (Value.int 3)
  else if n = "c" then some (Value.int 2) else none

/-- C2 witness: add(3, 3) and add(3, b=3, c=2) key identically (c is not in
the template), and after the first call populates, the second returns the
cached 7 — not a freshly computed 8 — with no invocation and no write. -/
theorem C2_witness :
    (c2cache.call c2store [Value.int 3, Value.int 3] emptyKw).key =
      (c2cache.call c2store [Value.int 3] c2kw).key ∧
    (c2cache.call (c2cache.call c2store [Value.int 3, Value.int 3] emptyKw).st
        [Value.int 3] c2kw).res = .ok (Value.int 7) ∧
    (c2cache.call (c2cache.call c2store [Value.int 3, Value.int 3] emptyKw).st
        [Value.int 3] c2kw).fcalls = 0 := by
  have h := C2_key_selectivity c2cache c2store ["a", "b"]
    [Value.int 3, Value.int 3] emptyKw [Value.int 3] c2kw
    (fun n hn => hn)
    (by intro n hn; fin_cases hn <;> rfl)
  exact ⟨h.1, (h.2 "add:3:3" (Value.int 7) rfl rfl rfl).1,
    (h.2 "add:3:3" (Value.int 7) rfl rfl rfl).2.1⟩

/-- The doctest function mul(a, b, c=2) = a * b * c on the binding. -/
def c3body : Binding → Except PyErr Value := fun b =>
  match b "a", b "b", b "c" with
  | some (.int x), some (.int y), some (.int z) => .ok (.int (x * y * z))
  | _, _, _ => .error .typeError

/-- Cache for mul with template mul:{a}:{b}:{c}. -/
def c3cache : Cache :=
  ⟨none, [TmplPart.lit "mul:", TmplPart.hole "a" [], TmplPart.lit ":",
    TmplPart.hole "b" [], TmplPart.lit ":", TmplPart.hole "c" []],
   DEFAULT_TIMEOUT, ["a", "b", "c"], [Value.int 2], false, c3body⟩

/-- Initially empty store. -/
def c3store : String → Option Value := fun _ => none

/-- Logical argument values of the doctest call family mul(3, 4, ...). -/
def c3vb : String → Value := fun n =>
  if n = "a" then Value.int 3
  else if n = "b" then Value.int 4 else Value.int 2

/-- The call mul(3, 4), relying on the default c=2, supplies c3vb. -/
theorem c3sup1 : Supplies ["a", "b", "c"] [Value.int 2] c3vb
    [Value.int 3, Value.int 4] emptyKw := by
  refine ⟨by decide, ?_, ?_, ?_⟩
  · intro i hi hj
    have h2 : i < 2 := by simpa using hi
    interval_cases i <;> rfl
  · intro n v h
    simp [emptyKw] at h
  · intro i hi
    have h3 : i < 3 := by simpa using hi
    interval_cases i
    · exact Or.inl (by decide)
    · exact Or.inl (by decide)
    · exact Or.inr (Or.inr ⟨by decide, rfl⟩)

/-- The call mul(3, 4, 2), spelling the default out, supplies c3vb too. -/
theorem c3sup2 : Supplies ["a", "b", "c"] [Value.int 2] c3vb
    [Value.int 3, Value.int 4, Value.int 2] emptyKw := by
  refine ⟨by decide, ?_, ?_, ?_⟩
  · intro i hi hj
    have h2 : i < 3 := by simpa using hi
    interval_cases i <;> rfl
  · intro n v h
    simp [emptyKw] at h
  · intro i hi
    have h3 : i < 3 := by simpa using hi
    interval_cases i
    · exact Or.inl (by decide)
    · exact Or.inl (by decide)
    · exact Or.inl (by decide)

/-- C3 witness: mul(3, 4) and mul(3, 4, 2) compute the identical key. -/
theorem C3_witness :
    (c3cache.call c3store [Value.int 3, Value.int 4] emptyKw).key =
      (c3cache.call c3store [Value.int 3, Value.int 4, Value.int 2]
        emptyKw).key :=
  (C3_argument_style_equivalence c3cache c3store c3vb ["a", "b", "c"]
    [Value.int 3, Value.int 4] emptyKw
    [Value.int 3, Value.int 4, Value.int 2] emptyKw rfl (by decide)
    (by decide) c3sup1 c3sup2).2.2

/-- The doctest function add(a, b, c=1) = a + b + c on the binding. -/
def c4body : Binding → Except PyErr Value := fun b =>
  match b "a", b "b", b "c" with
  | some (.int x), some (.int y), some (.int z) => .ok (.int (x + y + z))
  | _, _, _ => .error .typeError

/-- Cache for add with template add:{a}:{b}. -/
def c4cache : Cache :=
  ⟨none, [TmplPart.lit "add:", TmplPart.hole "a" [], TmplPart.lit ":",
    TmplPart.hole "b" []], DEFAULT_TIMEOUT, ["a", "b", "c"], [Value.int 1],
   false, c4body⟩

/-- Store already populated for add(3, 3). -/
def c4store : String → Option Value :=
  fun k => if k = "add:3:3" then some (Value.int 6) else none

/-- C4 witness: invalidate(3, 3) computes the same key add:3:3 an
invocation computes, deletes exactly it, and the entry is gone. -/
theorem C4_witness :
    (c4cache.invalidate c4store [Value.int 3, Value.int 3] emptyKw).key =
      (c4cache.call c4store [Value.int 3, Value.int 3] emptyKw).key ∧
    (c4cache.invalidate c4store [Value.int 3, Value.int 3] emptyKw).fcalls = 0 ∧
    (c4cache.invalidate c4store [Value.int 3, Value.int 3] emptyKw).deleted =
      ["add:3:3"] ∧
    (c4cache.invalidate c4store [Value.int 3, Value.int 3] emptyKw).st
      "add:3:3" = none := by
  have h := C4_invalidate_key_symmetry c4cache c4store c4store
    [Value.int 3, Value.int 3] emptyKw
  exact ⟨h.1, h.2.1, (h.2.2 "add:3:3" rfl).2.1, (h.2.2 "add:3:3" rfl).2.2.1⟩

/-- The doctest method Example.add(self, a, b, c=1) = a + b + c + self.incr,
as a function of the receiver and the binding. -/
def c5mbody : Value → Binding → Except PyErr Value := fun recv b =>
  match recv.getattr "incr", b "a", b "b", b "c" with
  | some (.int w), some (.int x), some (.int y), some (.int z) =>
      .ok (.int (x + y + z + w))
  | _, _, _, _ => .error .typeError

/-- The unbound Cache over Example.add: getargspec sees self as the first
declared name; invoking the plain function with keyword arguments alone
(no receiver) raises TypeError. -/
def c5cache : Cache :=
  ⟨none, [TmplPart.lit "example.add:", TmplPart.hole "a" [],
    TmplPart.lit ":", TmplPart.hole "b" [], TmplPart.lit ":",
    TmplPart.hole "c" []], DEFAULT_TIMEOUT, ["self", "a", "b", "c"],
   [Value.int 1], false, fun _ => .error .typeError⟩

/-- Example(1): a receiver whose incr attribute is 1. -/
def c5r1 : Value := Value.obj [("incr", Value.int 1)]

/-- Example(2): a receiver whose incr attribute is 2. -/
def c5r2 : Value := Value.obj [("incr", Value.int 2)]

/-- Initially empty store. -/
def c5store : String → Option Value := fun _ => none

/-- C5 witness: self stays out of the binding, both instances key
example.add:2:3:1, and after Example(1).add(2, 3) caches 7, the distinct
instance Example(2) gets the cached 7 — not 8 — with no invocation. -/
theorem C5_witness :
    (c5cache.bindReceiver c5mbody c5r1).pruneArgs [Value.int 2, Value.int 3]
        emptyKw "self" = none ∧
    ((c5cache.bindReceiver c5mbody c5r1).call c5store
        [Value.int 2, Value.int 3] emptyKw).key =
      ((c5cache.bindReceiver c5mbody c5r2).call c5store
        [Value.int 2, Value.int 3] emptyKw).key ∧
    ((c5cache.bindReceiver c5mbody c5r2).call
        ((c5cache.bindReceiver c5mbody c5r1).call c5store
          [Value.int 2, Value.int 3] emptyKw).st
        [Value.int 2, Value.int 3] emptyKw).res = .ok (Value.int 7) ∧
    ((c5cache.bindReceiver c5mbody c5r2).call
        ((c5cache.bindReceiver c5mbody c5r1).call c5store
          [Value.int 2, Value.int 3] emptyKw).st
        [Value.int 2, Value.int 3] emptyKw).fcalls = 0 := by
  have h := C5_receiver_exclusion_sharing c5cache c5mbody c5r1 c5r2 c5store
    [Value.int 2, Value.int 3] emptyKw
  exact ⟨h.2.2.1 "self" ["a", "b", "c"] rfl (by decide) rfl (by decide),
    h.2.1,
    (h.2.2.2 "example.add:2:3:1" (Value.int 7) rfl rfl rfl).1,
    (h.2.2.2 "example.add:2:3:1" (Value.int 7) rfl rfl rfl).2.1⟩

/-- The doctest function add(a, b, c=1) = a + b + c on the binding. -/
def c9body : Binding → Except PyErr Value := fun b =>
  match b "a", b "b", b "c" with
  | some (.int x), some (.int y), some (.int z) => .ok (.int (x + y + z))
  | _, _, _ => .error .typeError

/-- Cache for add with template add:{a}:{b}. -/
def c9cache : Cache :=
  ⟨none, [TmplPart.lit "add:", TmplPart.hole "a" [], TmplPart.lit ":",
    TmplPart.hole "b" []], DEFAULT_TIMEOUT, ["a", "b", "c"], [Value.int 1],
   false, c9body⟩

/-- Initially empty store. -/
def c9store : String → Option Value := fun _ => none

/-- C9 witness: add(3) leaves b unbound while the template references it;
the call surfaces KeyError b, never invokes add, and writes nothing. -/
theorem C9_witness :
    (c9cache.call c9store [Value.int 3] emptyKw).res =
      .error (.keyError "b") ∧
    (c9cache.call c9store [Value.int 3] emptyKw).fcalls = 0 ∧
    (c9cache.call c9store [Value.int 3] emptyKw).setOps = [] := by
  have h := (C9_render_failure_guards c9cache c9store [Value.int 3]
    emptyKw).2 (.keyError "b") rfl
  exact ⟨h.1, h.2.1, h.2.2.1⟩

/-- Two-parameter function a + b on the binding. -/
def c10body : Binding → Except PyErr Value := fun b =>
  match b "a", b "b" with
  | some (.int x), some (.int y) => .ok (.int (x + y))
  | _, _ => .error .typeError

/-- Cache for a plain two-parameter function with template f:{a}:{b}. -/
def c10cache : Cache :=
  ⟨none, [TmplPart.lit "f:", TmplPart.hole "a" [], TmplPart.lit ":",
    TmplPart.hole "b" []], DEFAULT_TIMEOUT, ["a", "b"], [], false, c10body⟩

/-- Initially empty store. -/
def c10store : String → Option Value := fun _ => none

/-- C10 witness: the three-positional-argument call behaves exactly as the
two-argument call; the excess 9 is dropped. -/
theorem C10_witness :
    c10cache.call c10store [Value.int 3, Value.int 4, Value.int 9] emptyKw =
      c10cache.call c10store [Value.int 3, Value.int 4] emptyKw :=
  (C10_excess_positional_dropped c10cache c10store
    [Value.int 3, Value.int 4, Value.int 9] emptyKw rfl (by decide)).2
